import Mathlib

/-!
Verification of the ProteinPrep 2.0 core pipeline (`proteinprep.py`).

The embedding models:
 - `clean_pdb` (the record filter/cleaner) as a pure function on the list of
   input lines, returning the removal counters and the list of written lines,
   or an error when no line is written;
 - `download_pdb` (bounded retry fetch) as a loop over attempt outcomes;
 - the per-target orchestration of `main` as a function from a per-target
   environment (outcomes of the external world) to a report entry and the
   list of external tool invocations.

A file is a list of lines; a Python string is modelled as a `List Char`,
each line kept exactly as Python's line iteration yields it (trailing
newline included where present), so Python slice/strip/upper operations
become `List.take`/`List.drop`/`map Char.toUpper`.
-/

namespace ProteinPrep

/-- One Python string (here: one line of a structure file, or a field). -/
abbrev PyStr := List Char

/-- Python `s.strip()`: remove leading and trailing whitespace. -/
def pyStrip (s : PyStr) : PyStr :=
  ((s.dropWhile Char.isWhitespace).reverse.dropWhile Char.isWhitespace).reverse

/-- Python `s.upper()`. -/
def pyUpper (s : PyStr) : PyStr := s.map Char.toUpper

/-- Python `line.startswith(("ATOM  ", "HETATM", "TER", "END"))`:
the gate deciding whether a line is a candidate record at all. -/
def isRecordLine (line : PyStr) : Bool :=
  "ATOM  ".data.isPrefixOf line || "HETATM".data.isPrefixOf line ||
  "TER".data.isPrefixOf line || "END".data.isPrefixOf line

/-- Python `line[0:6].strip()` — the record-kind field. -/
def recOf (line : PyStr) : PyStr :=
  pyStrip (line.take 6)

/-- Python `line[21:22].strip() if len(line) >= 22 else ""` — the chain-id column. -/
def chainIdOf (line : PyStr) : PyStr :=
  if 22 ≤ line.length then pyStrip ((line.drop 21).take 1) else []

/-- Python `line[17:20].strip().upper() if len(line) >= 20 else ""` — the residue name. -/
def resnameOf (line : PyStr) : PyStr :=
  if 20 ≤ line.length then pyUpper (pyStrip ((line.drop 17).take 3)) else []

/-- Python `keep_chains = [c.strip().upper() for c in (keep_chains or [])] if keep_chains else None`,
with `None` and the empty list collapsed to `[]` (both are falsy wherever the
normalized `keep_chains` is used afterwards). -/
def normChains (kc : Option (List PyStr)) : List PyStr :=
  match kc with
  | none => []
  | some l => if l.isEmpty then [] else l.map (fun c => pyUpper (pyStrip c))

/-- Python `keep_ligands = [k.strip().upper() for k in (keep_ligands or [])] if keep_ligands else []`. -/
def normLigands (kl : Option (List PyStr)) : List PyStr :=
  match kl with
  | none => []
  | some l => if l.isEmpty then [] else l.map (fun k => pyUpper (pyStrip k))

/-- Python `if keep_chains and chain_id and chain_id.upper() not in keep_chains`:
the chain-exclusion predicate (`kc` already normalized, `[]` when the caller
passed `None` or an empty list). -/
def chainDrop (kc : List PyStr) (line : PyStr) : Bool :=
  !kc.isEmpty && !(chainIdOf line).isEmpty && !(kc.contains (pyUpper (chainIdOf line)))

/-- Python `if remove_waters and resname in ("HOH", "H2O", "WAT")`. -/
def waterDrop (removeWaters : Bool) (line : PyStr) : Bool :=
  removeWaters &&
    (resnameOf line == "HOH".data || resnameOf line == "H2O".data ||
     resnameOf line == "WAT".data)

/-- Python `if remove_hetero and rec == "HETATM" and resname not in keep_ligands`. -/
def heteroDrop (removeHetero : Bool) (kl : List PyStr) (line : PyStr) : Bool :=
  removeHetero && recOf line == "HETATM".data && !(kl.contains (resnameOf line))

/-- A line reaches `fout.write(line)`: it is a record line and no filter drops it. -/
def keepLine (removeWaters removeHetero : Bool) (kc kl : List PyStr)
    (line : PyStr) : Bool :=
  isRecordLine line && !chainDrop kc line && !waterDrop removeWaters line &&
    !heteroDrop removeHetero kl line

/-- The `removed` counter dictionary of `clean_pdb`. -/
structure Removed where
  waters : Nat
  hetero_residues : Nat
  skipped_chains : Nat
  deriving Repr, DecidableEq

/-- The body of `clean_pdb`'s `for line in fin` loop: returns the lines
written to `fout` (in order) and the final counters. -/
def cleanLines (removeWaters removeHetero : Bool) (kc kl : List PyStr) :
    List PyStr → List PyStr × Removed
  | [] => ([], ⟨0, 0, 0⟩)
  | line :: rest =>
    let p := cleanLines removeWaters removeHetero kc kl rest
    if isRecordLine line then
      if chainDrop kc line then
        (p.1, { p.2 with skipped_chains := p.2.skipped_chains + 1 })
      else if waterDrop removeWaters line then
        (p.1, { p.2 with waters := p.2.waters + 1 })
      else if heteroDrop removeHetero kl line then
        (p.1, { p.2 with hetero_residues := p.2.hetero_residues + 1 })
      else (line :: p.1, p.2)
    else p

/-- Function `clean_pdb`: normalizes the keep lists, filters the input lines, and
raises (returns `.error`) when nothing was written. On success it returns
the counters together with the lines written to the destination file. -/
def clean_pdb (removeWaters removeHetero : Bool)
    (keepChains keepLigands : Option (List PyStr))
    (input : List PyStr) : Except String (Removed × List PyStr) :=
  if (cleanLines removeWaters removeHetero (normChains keepChains)
        (normLigands keepLigands) input).1.isEmpty then
    .error "No ATOM/HETATM records written — check input or filters."
  else
    .ok ((cleanLines removeWaters removeHetero (normChains keepChains)
            (normLigands keepLigands) input).2,
         (cleanLines removeWaters removeHetero (normChains keepChains)
            (normLigands keepLigands) input).1)

/-- Function `clean_pdb` including the destination-file effect: the destination is
opened with mode `"w"` before the loop (created/truncated), so its final
contents are the written lines whether or not the call raises. -/
def clean_pdb_run (removeWaters removeHetero : Bool)
    (keepChains keepLigands : Option (List PyStr))
    (input : List PyStr) :
    Except String (Removed × List PyStr) × Option (List PyStr) :=
  (clean_pdb removeWaters removeHetero keepChains keepLigands input,
   some (cleanLines removeWaters removeHetero (normChains keepChains)
          (normLigands keepLigands) input).1)

/-! ### Retriever: `download_pdb` -/

/-- Outcome of one `requests.get` attempt: either a successful response with
its body, or a raised `requests.RequestException` rendered as text. -/
structure AttemptResult where
  ok : Bool
  content : PyStr
  err : String
  deriving Repr

/-- Observable effects of one `download_pdb` call. -/
structure FetchTrace where
  result : Except String PyStr
  calls : Nat
  written : Option PyStr
  sleeps : Nat
  deriving Repr

/-- The `for attempt in range(1, retries + 1)` loop of `download_pdb`, over an
explicit list of attempt numbers.  Returns the first successful attempt with
its content (if any), the number of network calls made, and `last_err`. -/
def downloadAttempts (oracle : Nat → AttemptResult) :
    List Nat → Option (Nat × PyStr) × Nat × Option String
  | [] => (none, 0, none)
  | a :: rest =>
    if (oracle a).ok then (some (a, (oracle a).content), 1, none)
    else
      let p := downloadAttempts oracle rest
      (p.1, p.2.1 + 1, some (p.2.2.getD (oracle a).err))

/-- Function `download_pdb(pdb_id, out_path, retries, timeout)`: one network call per
attempt, a 2-second sleep after each failed attempt, a single file write on
the first success, and a `RuntimeError` after `retries` failures. -/
def download_pdb (oracle : Nat → AttemptResult) (pdb_id : PyStr)
    (retries : Nat) : FetchTrace :=
  match (downloadAttempts oracle (List.range' 1 retries)).1 with
  | some (_, content) =>
    { result := .ok content,
      calls := (downloadAttempts oracle (List.range' 1 retries)).2.1,
      written := some content,
      sleeps := (downloadAttempts oracle (List.range' 1 retries)).2.1 - 1 }
  | none =>
    { result := .error
        ("Failed to download " ++ String.mk (pyUpper pdb_id) ++ " after " ++
          toString retries ++ " attempts: " ++
          ((downloadAttempts oracle (List.range' 1 retries)).2.2.getD "None")),
      calls := (downloadAttempts oracle (List.range' 1 retries)).2.1,
      written := none,
      sleeps := (downloadAttempts oracle (List.range' 1 retries)).2.1 }

/-! ### Orchestration: the per-target body of `main` -/

/-- Python `" ".join(parts)`. -/
def joinSpace : List PyStr → PyStr
  | [] => []
  | [x] => x
  | x :: xs => x ++ ' ' :: joinSpace xs

/-- Python `os.path.join` for two components (POSIX behaviour). -/
def pathJoin (a b : PyStr) : PyStr :=
  if b.head? = some '/' then b
  else if a.isEmpty ∨ a.getLast? = some '/' then a ++ b
  else a ++ '/' :: b

/-- Python `os.path.basename` (POSIX behaviour). -/
def basename (p : PyStr) : PyStr :=
  ((p.splitOn '/').getLast?).getD []

/-- The root part of `os.path.splitext(name)` for a path without directory
separators: split at the rightmost dot, unless every character before it is
a dot (leading dots belong to the root). -/
def splitextRoot (name : PyStr) : PyStr :=
  let k := (name.takeWhile (· = '.')).length
  let rest := name.drop k
  match rest.reverse.findIdx? (· = '.') with
  | none => name
  | some revIdx => name.take (k + (rest.length - 1 - revIdx))

/-- The `{"cmd": ..., "rc": ..., "output": ...}` dictionary returned by the
external-tool helpers: the joined command line, the exit code, and the
combined captured stdout/stderr text. -/
structure ExecutionResult where
  cmd : PyStr
  rc : Int
  output : PyStr
  deriving Repr, DecidableEq

/-- What one `subprocess.run` of an external tool produced (supplied by the
environment: exit code and combined captured output). -/
structure ToolRun where
  rc : Int
  output : PyStr
  deriving Repr, DecidableEq

/-- State of the system path, fixed for the whole invocation: the resolved
OpenBabel executable (`which("obabel") or which("babel")`), if any, and
whether `pdb2pqr` resolves. -/
structure SysEnv where
  obabel_exe : Option PyStr
  pdb2pqr_ready : Bool
  deriving Repr, DecidableEq

/-- Probe `obabel_available()`. -/
def SysEnv.obabel_ready (sys : SysEnv) : Bool := sys.obabel_exe.isSome

/-- One external process invocation made by the pipeline. -/
inductive ToolCall where
  | protonate (input output ph : PyStr)
  | hydrogens (input output : PyStr)
  | convert (input output : PyStr)
  deriving Repr, DecidableEq

/-- The command line `[exe, input_file, "-O", output_file, "-h"]`. -/
def obabelHydroCmd (exe input_file output_file : PyStr) : PyStr :=
  joinSpace [exe, input_file, "-O".data, output_file, "-h".data]

/-- The command line `[exe, input_file, "-O", output_file]`. -/
def obabelConvertCmd (exe input_file output_file : PyStr) : PyStr :=
  joinSpace [exe, input_file, "-O".data, output_file]

/-- The command line `["pdb2pqr", "--ff=PARSE", "--with-ph=<ph>", input_file, output_file]`. -/
def pdb2pqrCmd (input_file output_file ph : PyStr) : PyStr :=
  joinSpace ["pdb2pqr".data, "--ff=PARSE".data, "--with-ph=".data ++ ph,
    input_file, output_file]

/-- Helper `add_hydrogens_with_obabel(input_file, output_file)`: raises when no
OpenBabel executable resolves, otherwise runs
`[exe, input_file, "-O", output_file, "-h"]`. -/
def add_hydrogens_with_obabel (sys : SysEnv) (run : ToolRun)
    (input_file output_file : PyStr) : Except String ExecutionResult :=
  match sys.obabel_exe with
  | none => .error "OpenBabel CLI not found."
  | some exe =>
    .ok ⟨obabelHydroCmd exe input_file output_file, run.rc, run.output⟩

/-- Helper `convert_to_pdbqt_with_obabel(input_file, output_file)`: raises when no
OpenBabel executable resolves, otherwise runs `[exe, input_file, "-O", output_file]`. -/
def convert_to_pdbqt_with_obabel (sys : SysEnv) (run : ToolRun)
    (input_file output_file : PyStr) : Except String ExecutionResult :=
  match sys.obabel_exe with
  | none => .error "OpenBabel CLI not found."
  | some exe =>
    .ok ⟨obabelConvertCmd exe input_file output_file, run.rc, run.output⟩

/-- Helper `protonate_with_pdb2pqr(input_file, output_file, ph)`: raises when
`pdb2pqr` does not resolve, otherwise runs
`["pdb2pqr", "--ff=PARSE", "--with-ph=<ph>", input_file, output_file]`
(`ph` carried as its rendered text). -/
def protonate_with_pdb2pqr (sys : SysEnv) (run : ToolRun)
    (input_file output_file ph : PyStr) : Except String ExecutionResult :=
  if sys.pdb2pqr_ready then
    .ok ⟨pdb2pqrCmd input_file output_file ph, run.rc, run.output⟩
  else .error "PDB2PQR CLI not found."

/-- The configuration `main` threads into the per-target loop: filter options
(already split and upper-cased, exactly as passed to `clean_pdb`), stage
toggles, pH text, and the output directory. -/
structure MainConfig where
  out_dir : PyStr
  remove_waters : Bool
  remove_hetero : Bool
  keep_chain_list : Option (List PyStr)
  keep_lig_list : Option (List PyStr)
  add_hydrogens : Bool
  protonate : Bool
  auto_pdbqt : Bool
  ph : PyStr
  deriving Repr

/-- Everything the outside world decides for one target: whether the target
string is an existing local path, whether `download_pdb` succeeds, the text of
the download failure if it does not, the lines of the resolved structure file,
and the outcome of each external tool run, were it invoked. -/
structure TargetEnv where
  isLocal : Bool
  downloadOk : Bool
  downloadErrText : String
  fileLines : List PyStr
  protonRun : ToolRun
  hydroRun : ToolRun
  convertRun : ToolRun
  deriving Repr

/-- The per-target success report dictionary built by `main`'s loop body
(`None` models an absent key). -/
structure OkReport where
  input : PyStr
  fetched : PyStr
  cleaned : PyStr
  removed : Removed
  protonate : Option ExecutionResult := none
  protonate_skipped : Option PyStr := none
  add_hydrogens : Option ExecutionResult := none
  add_hydrogens_skipped : Option PyStr := none
  pdbqt : Option ExecutionResult := none
  pdbqt_skipped : Option PyStr := none
  deriving Repr, DecidableEq

/-- One element of the `reports` list: the success dictionary, or the
`{"input": t, "error": str(e)}` dictionary built by the `except` handler. -/
inductive ReportEntry where
  | ok (r : OkReport)
  | failure (input : PyStr) (error : String)
  deriving Repr, DecidableEq

/-- Loop-local state after the clean stage: the report under construction,
the current "processed" file, and the tool invocations made so far. -/
structure StageState where
  report : OkReport
  processed : PyStr
  calls : List ToolCall
  deriving Repr, DecidableEq

def fetchedPath (cfg : MainConfig) (label : PyStr) : PyStr :=
  pathJoin cfg.out_dir (label ++ ".pdb".data)

def cleanedPath (cfg : MainConfig) (label : PyStr) : PyStr :=
  pathJoin cfg.out_dir (label ++ "_clean.pdb".data)

def finalPdbPath (cfg : MainConfig) (label : PyStr) : PyStr :=
  pathJoin cfg.out_dir (label ++ "_final.pdb".data)

def pdbqtPath (cfg : MainConfig) (label : PyStr) : PyStr :=
  pathJoin cfg.out_dir (label ++ "_final.pdbqt".data)

/-- RESOLVE: an existing local path is used as-is (label = basename without
extension); otherwise the target is an identifier, upper-cased, and fetched
into the output directory — a failed fetch raises the download error.
Returns `(fetched, pdb_label)`. -/
def resolveTarget (cfg : MainConfig) (env : TargetEnv) (t : PyStr) :
    Except String (PyStr × PyStr) :=
  if env.isLocal then .ok (t, splitextRoot (basename t))
  else
    let label := pyUpper t
    if env.downloadOk then .ok (fetchedPath cfg label, label)
    else .error ("Failed to download " ++ String.mk label ++
      " after 3 attempts: " ++ env.downloadErrText)

/-- The `if protonate:` block of `main`'s loop body. -/
def protonStage (cfg : MainConfig) (sys : SysEnv) (env : TargetEnv)
    (label : PyStr) (st : StageState) : Except String StageState :=
  if cfg.protonate then
    if sys.pdb2pqr_ready then
      let proton_file := finalPdbPath cfg label
      match protonate_with_pdb2pqr sys env.protonRun st.processed proton_file cfg.ph with
      | .error e => .error e
      | .ok res =>
        let st' := { st with
          report := { st.report with protonate := some res },
          calls := st.calls ++ [.protonate st.processed proton_file cfg.ph] }
        if res.rc = 0 then .ok { st' with processed := proton_file }
        else .ok st'
    else
      .ok { st with report :=
        { st.report with protonate_skipped := some "PDB2PQR not available".data } }
  else .ok st

/-- The `if add_hydrogens and not protonate:` block of `main`'s loop body. -/
def hydroStage (cfg : MainConfig) (sys : SysEnv) (env : TargetEnv)
    (label : PyStr) (st : StageState) : Except String StageState :=
  if cfg.add_hydrogens ∧ ¬ cfg.protonate then
    if sys.obabel_ready then
      let hydrog_file := finalPdbPath cfg label
      match add_hydrogens_with_obabel sys env.hydroRun st.processed hydrog_file with
      | .error e => .error e
      | .ok res =>
        let st' := { st with
          report := { st.report with add_hydrogens := some res },
          calls := st.calls ++ [.hydrogens st.processed hydrog_file] }
        if res.rc = 0 then .ok { st' with processed := hydrog_file }
        else .ok st'
    else
      .ok { st with report :=
        { st.report with add_hydrogens_skipped := some "OpenBabel not available".data } }
  else .ok st

/-- The `if auto_pdbqt:` block of `main`'s loop body (never advances
`processed`). -/
def convertStage (cfg : MainConfig) (sys : SysEnv) (env : TargetEnv)
    (label : PyStr) (st : StageState) : Except String StageState :=
  if cfg.auto_pdbqt then
    if sys.obabel_ready then
      let pdbqt_file := pdbqtPath cfg label
      match convert_to_pdbqt_with_obabel sys env.convertRun st.processed pdbqt_file with
      | .error e => .error e
      | .ok res =>
        .ok { st with
          report := { st.report with pdbqt := some res },
          calls := st.calls ++ [.convert st.processed pdbqt_file] }
    else
      .ok { st with report :=
        { st.report with pdbqt_skipped := some "OpenBabel not available".data } }
  else .ok st

/-- The whole `try:` body of `main`'s per-target loop. -/
def runTargetE (cfg : MainConfig) (sys : SysEnv) (env : TargetEnv)
    (t : PyStr) : Except String StageState := do
  let (fetched, label) ← resolveTarget cfg env t
  let cleaned := cleanedPath cfg label
  let (removed, _) ← clean_pdb cfg.remove_waters cfg.remove_hetero
    cfg.keep_chain_list cfg.keep_lig_list env.fileLines
  let st0 : StageState :=
    ⟨{ input := t, fetched := fetched, cleaned := cleaned, removed := removed },
      cleaned, []⟩
  let st1 ← protonStage cfg sys env label st0
  let st2 ← hydroStage cfg sys env label st1
  convertStage cfg sys env label st2

/-- One iteration of `main`'s loop including the `except` handler: a
target-fatal exception becomes a `{"input": t, "error": str(e)}` entry.
Returns the report entry, the tool invocations made, and the final value of
the `processed` variable (absent when the body raised). -/
def runTarget (cfg : MainConfig) (sys : SysEnv) (env : TargetEnv)
    (t : PyStr) : ReportEntry × List ToolCall × Option PyStr :=
  match runTargetE cfg sys env t with
  | .ok st => (.ok st.report, st.calls, some st.processed)
  | .error e => (.failure t e, [], none)

/-- The whole batch loop: one report entry per target, in order (the
environment list supplies, per position, what the world does for that
target). -/
def runTargets (cfg : MainConfig) (sys : SysEnv) (envs : List TargetEnv)
    (targets : List PyStr) : List ReportEntry :=
  List.zipWith (fun t env => (runTarget cfg sys env t).1) targets envs

/-- End state of `main`: the `reports` list and the contents of
`proteinprep_log.json`, written exactly once after the loop. -/
structure MainResult where
  reports : List ReportEntry
  log_written : Option (List ReportEntry)
  deriving Repr

/-- Function `main` after target-list construction: run every target, then serialize
the full report sequence once. -/
def mainRun (cfg : MainConfig) (sys : SysEnv) (envs : List TargetEnv)
    (targets : List PyStr) : MainResult :=
  let reports := runTargets cfg sys envs targets
  { reports := reports, log_written := some reports }

/-! ### Small projections used to state the claims -/

/-- Whether an `Except` value is a raised exception. -/
def isError {ε α : Type} : Except ε α → Bool
  | .error _ => true
  | .ok _ => false

/-- Whether a report entry is a success dictionary. -/
def ReportEntry.isOkEntry : ReportEntry → Bool
  | .ok _ => true
  | .failure _ _ => false

/-- The `report["protonate"]` value of an entry, when present. -/
def ReportEntry.protonRecord : ReportEntry → Option ExecutionResult
  | .ok r => r.protonate
  | .failure _ _ => none

/-- The `report["add_hydrogens"]` value of an entry, when present. -/
def ReportEntry.hydroResultRecord : ReportEntry → Option ExecutionResult
  | .ok r => r.add_hydrogens
  | .failure _ _ => none

/-- The `report["add_hydrogens_skipped"]` value of an entry, when present. -/
def ReportEntry.hydroSkipRecord : ReportEntry → Option PyStr
  | .ok r => r.add_hydrogens_skipped
  | .failure _ _ => none

/-- Whether a tool invocation is a hydrogenation run. -/
def ToolCall.isHydro : ToolCall → Bool
  | .hydrogens _ _ => true
  | _ => false

/-- The `pdb_label` computed for a target in `main`'s loop. -/
def targetLabel (env : TargetEnv) (t : PyStr) : PyStr :=
  if env.isLocal then splitextRoot (basename t) else pyUpper t

/-! ### Structural lemmas about the cleaning loop -/

theorem cleanLines_fst (rw rh : Bool) (kc kl : List PyStr) (input : List PyStr) :
    (cleanLines rw rh kc kl input).1 = input.filter (keepLine rw rh kc kl) := by
  induction input with
  | nil => rfl
  | cons line rest ih =>
    simp only [cleanLines, keepLine]
    cases h₁ : isRecordLine line <;>
      cases h₂ : chainDrop kc line <;>
        cases h₃ : waterDrop rw line <;>
          cases h₄ : heteroDrop rh kl line <;>
            simp [List.filter_cons, h₁, h₂, h₃, h₄, ih, keepLine]

theorem cleanLines_skipped_chains (rw rh : Bool) (kc kl : List PyStr)
    (input : List PyStr) :
    (cleanLines rw rh kc kl input).2.skipped_chains =
      input.countP (fun l => isRecordLine l && chainDrop kc l) := by
  induction input with
  | nil => rfl
  | cons line rest ih =>
    simp only [cleanLines]
    cases h₁ : isRecordLine line <;>
      cases h₂ : chainDrop kc line <;>
        cases h₃ : waterDrop rw line <;>
          cases h₄ : heteroDrop rh kl line <;>
            simp [List.countP_cons, h₁, h₂, h₃, h₄, ih]

theorem cleanLines_waters (rw rh : Bool) (kc kl : List PyStr)
    (input : List PyStr) :
    (cleanLines rw rh kc kl input).2.waters =
      input.countP (fun l => isRecordLine l && !chainDrop kc l && waterDrop rw l) := by
  induction input with
  | nil => rfl
  | cons line rest ih =>
    simp only [cleanLines]
    cases h₁ : isRecordLine line <;>
      cases h₂ : chainDrop kc line <;>
        cases h₃ : waterDrop rw line <;>
          cases h₄ : heteroDrop rh kl line <;>
            simp [List.countP_cons, h₁, h₂, h₃, h₄, ih]

theorem cleanLines_hetero (rw rh : Bool) (kc kl : List PyStr)
    (input : List PyStr) :
    (cleanLines rw rh kc kl input).2.hetero_residues =
      input.countP
        (fun l => isRecordLine l && !chainDrop kc l && !waterDrop rw l &&
          heteroDrop rh kl l) := by
  induction input with
  | nil => rfl
  | cons line rest ih =>
    simp only [cleanLines]
    cases h₁ : isRecordLine line <;>
      cases h₂ : chainDrop kc line <;>
        cases h₃ : waterDrop rw line <;>
          cases h₄ : heteroDrop rh kl line <;>
            simp [List.countP_cons, h₁, h₂, h₃, h₄, ih]

/-! ### Field-parsing lemmas -/

theorem revDropWhile_rev_pre (p : Char → Bool) (l : PyStr) :
    (l.reverse.dropWhile p).reverse <+: l :=
  List.reverse_suffix.mp (by rw [List.reverse_reverse]; exact List.dropWhile_suffix p)

theorem pyStrip_pre_of_head (c : Char) (xs : PyStr) (hw : c.isWhitespace = false) :
    pyStrip (c :: xs) <+: c :: xs := by
  unfold pyStrip
  rw [List.dropWhile_cons, if_neg (by simp [hw])]
  exact revDropWhile_rev_pre _ _

theorem recOf_head_ne (c : Char) (xs : PyStr) (hw : c.isWhitespace = false)
    (hne : c ≠ 'H') : recOf (c :: xs) ≠ "HETATM".data := by
  intro h
  have h6 : recOf (c :: xs) = pyStrip (c :: xs.take 5) := by
    simp [recOf, List.take_succ_cons]
  have hp : ("HETATM".data : PyStr) <+: c :: xs.take 5 := by
    have hpre := pyStrip_pre_of_head c (xs.take 5) hw
    rw [← h6, h] at hpre
    exact hpre
  have : 'H' = c := (List.cons_prefix_cons.mp hp).1
  exact hne this.symm

theorem recOf_of_hetatm (line : PyStr)
    (h : "HETATM".data.isPrefixOf line = true) : recOf line = "HETATM".data := by
  have hp : ("HETATM".data : PyStr) <+: line := by simpa using h
  obtain ⟨t, rfl⟩ := hp
  show pyStrip (("HETATM".data ++ t).take 6) = _
  rw [List.take_left' (by rfl)]
  rfl

theorem recOf_of_atom (line : PyStr)
    (h : "ATOM  ".data.isPrefixOf line = true) : recOf line = "ATOM".data := by
  have hp : ("ATOM  ".data : PyStr) <+: line := by simpa using h
  obtain ⟨t, rfl⟩ := hp
  show pyStrip (("ATOM  ".data ++ t).take 6) = _
  rw [List.take_left' (by rfl)]
  rfl

theorem heteroDrop_eq_true_iff (rh : Bool) (kl : List PyStr) (line : PyStr) :
    heteroDrop rh kl line = true ↔
      rh = true ∧ recOf line = "HETATM".data ∧
        kl.contains (resnameOf line) = false := by
  simp [heteroDrop, Bool.and_eq_true, Bool.not_eq_true', and_assoc]

/-! ### Characterization of `clean_pdb`'s result -/

theorem clean_pdb_ok_elim (rw rh : Bool) (kc kl : Option (List PyStr))
    (input out : List PyStr) (rem : Removed)
    (h : clean_pdb rw rh kc kl input = .ok (rem, out)) :
    out = (cleanLines rw rh (normChains kc) (normLigands kl) input).1 ∧
    rem = (cleanLines rw rh (normChains kc) (normLigands kl) input).2 ∧
    out ≠ [] := by
  unfold clean_pdb at h
  split at h
  · exact absurd h (by simp)
  · next hne =>
    obtain ⟨h1, h2⟩ := by simpa using h
    refine ⟨h2.symm, h1.symm, ?_⟩
    subst h2
    simpa [List.isEmpty_iff] using hne

theorem clean_pdb_error_iff (rw rh : Bool) (kc kl : Option (List PyStr))
    (input : List PyStr) :
    isError (clean_pdb rw rh kc kl input) = true ↔
      input.filter (keepLine rw rh (normChains kc) (normLigands kl)) = [] := by
  unfold clean_pdb
  rw [← cleanLines_fst]
  split
  · next hemp => simpa [isError, List.isEmpty_iff] using hemp
  · next hne => simpa [isError, List.isEmpty_iff] using hne

/-! ### C1 -/

/-- C1: for every input and filter configuration, each line `clean_pdb`
writes is a line of the input, in the input's relative order and
byte-for-byte unchanged (the written lines form a sublist of the input); a
line appears in the output exactly when it is an input line of retained
record kind that passes the chain, water and heteroatom predicates (that is
`keepLine`, which tries them in that order); and each removal counter counts
exactly the retained-kind lines whose first matching predicate, in the order
chain exclusion, water exclusion, heteroatom exclusion, is its own. -/
theorem clean_pdb_filters_exactly (rw rh : Bool) (kc kl : Option (List PyStr))
    (input out : List PyStr) (rem : Removed)
    (h : clean_pdb rw rh kc kl input = .ok (rem, out)) :
    out.Sublist input ∧
    out = input.filter (keepLine rw rh (normChains kc) (normLigands kl)) ∧
    (∀ line, line ∈ out ↔
      line ∈ input ∧
        keepLine rw rh (normChains kc) (normLigands kl) line = true) ∧
    rem.skipped_chains =
      input.countP (fun l => isRecordLine l && chainDrop (normChains kc) l) ∧
    rem.waters =
      input.countP (fun l =>
        isRecordLine l && !chainDrop (normChains kc) l && waterDrop rw l) ∧
    rem.hetero_residues =
      input.countP (fun l =>
        isRecordLine l && !chainDrop (normChains kc) l && !waterDrop rw l &&
          heteroDrop rh (normLigands kl) l) := by
  obtain ⟨hout, hrem, -⟩ := clean_pdb_ok_elim rw rh kc kl input out rem h
  subst hout hrem
  rw [cleanLines_fst]
  refine ⟨List.filter_sublist input, rfl, ?_, ?_, ?_, ?_⟩
  · intro line; exact List.mem_filter
  · exact cleanLines_skipped_chains rw rh _ _ input
  · exact cleanLines_waters rw rh _ _ input
  · exact cleanLines_hetero rw rh _ _ input

theorem clean_pdb_filters_exactly_witness :
    (["ATOM  x".data] : List PyStr).Sublist ["ATOM  x".data] :=
  (clean_pdb_filters_exactly true true none none
    ["ATOM  x".data] ["ATOM  x".data] ⟨0, 0, 0⟩ rfl).1

/-! ### C2 -/

/-- C2: `clean_pdb` raises its empty-output error exactly when zero lines
are retained; for any input whose every line is water-named or a HETATM
record, running with `remove_waters = remove_hetero = true` and an empty
ligand keep-list raises; and whenever at least one line is retained,
`clean_pdb` returns the counters and written lines without error. -/
theorem clean_pdb_empty_output_spec (rw rh : Bool)
    (kc kl : Option (List PyStr)) (input : List PyStr) :
    (isError (clean_pdb rw rh kc kl input) = true ↔
      input.filter (keepLine rw rh (normChains kc) (normLigands kl)) = []) ∧
    ((∀ l ∈ input,
        resnameOf l = "HOH".data ∨ resnameOf l = "H2O".data ∨
          resnameOf l = "WAT".data ∨ "HETATM".data.isPrefixOf l = true) →
      isError (clean_pdb true true kc none input) = true) ∧
    (input.filter (keepLine rw rh (normChains kc) (normLigands kl)) ≠ [] →
      clean_pdb rw rh kc kl input =
        .ok ((cleanLines rw rh (normChains kc) (normLigands kl) input).2,
          input.filter (keepLine rw rh (normChains kc) (normLigands kl)))) := by
  refine ⟨clean_pdb_error_iff rw rh kc kl input, ?_, ?_⟩
  · intro hall
    rw [clean_pdb_error_iff]
    rw [List.filter_eq_nil_iff]
    intro l hl
    simp only [Bool.not_eq_true]
    rcases hall l hl with hw | hw | hw | hh
    · by_cases hcd : chainDrop (normChains kc) l = true <;>
        simp [keepLine, waterDrop, hcd, hw]
    · by_cases hcd : chainDrop (normChains kc) l = true <;>
        simp [keepLine, waterDrop, hcd, hw]
    · by_cases hcd : chainDrop (normChains kc) l = true <;>
        simp [keepLine, waterDrop, hcd, hw]
    · have hrec := recOf_of_hetatm l hh
      simp [keepLine, heteroDrop, hrec, normLigands]
  · intro hne
    unfold clean_pdb
    rw [← cleanLines_fst] at hne
    rw [if_neg (by simpa [List.isEmpty_iff] using hne)]
    rw [cleanLines_fst]

theorem clean_pdb_empty_output_spec_witness :
    isError (clean_pdb true true none none
      ["HETATM    2  O   XYZ A   2".data]) = true ∧
    clean_pdb true true none none ["ATOM  x".data] =
      .ok (⟨0, 0, 0⟩, ["ATOM  x".data]) := by
  constructor
  · exact (clean_pdb_empty_output_spec true true none none _).2.1
      (by intro l hl; simp at hl; subst hl; right; right; right; decide)
  · exact (clean_pdb_empty_output_spec true true none none
      ["ATOM  x".data]).2.2 (by decide)

/-! ### C7 -/

/-- C7: the heteroatom filter fires only on HETATM-kind records — never on a
line starting `ATOM  `, `TER` or `END` — and the ligand keep-list is its only
residue test; with `remove_hetero = true` and `keep_ligands = {"HEM"}` (and
no chain filter, as in the spec's scenario), a HETATM line whose residue name
is HEM is retained by `clean_pdb`'s keep decision, and a HETATM line with any
other residue name is removed whatever the other filters would say. -/
theorem hetero_filter_hetatm_only :
    (∀ (rh : Bool) (kl : List PyStr) (line : PyStr),
      heteroDrop rh kl line = true → recOf line = "HETATM".data) ∧
    (∀ (rh : Bool) (kl : List PyStr) (line : PyStr),
      ("ATOM  ".data.isPrefixOf line || "TER".data.isPrefixOf line ||
        "END".data.isPrefixOf line) = true → heteroDrop rh kl line = false) ∧
    (∀ (rw : Bool) (line : PyStr), "HETATM".data.isPrefixOf line = true →
      resnameOf line = "HEM".data →
      keepLine rw true (normChains none) (normLigands (some ["HEM".data]))
        line = true) ∧
    (∀ (rw : Bool) (kc : List PyStr) (line : PyStr),
      "HETATM".data.isPrefixOf line = true → resnameOf line ≠ "HEM".data →
      keepLine rw true kc (normLigands (some ["HEM".data])) line = false) := by
  refine ⟨?_, ?_, ?_, ?_⟩
  · intro rh kl line h
    exact ((heteroDrop_eq_true_iff rh kl line).mp h).2.1
  · intro rh kl line h
    rw [Bool.or_assoc, Bool.or_eq_true, Bool.or_eq_true] at h
    have hne : recOf line ≠ "HETATM".data := by
      rcases h with h | h | h
      · rw [recOf_of_atom line h]; decide
      · have hp : ("TER".data : PyStr) <+: line := by simpa using h
        obtain ⟨t, rfl⟩ := hp
        exact recOf_head_ne 'T' _ (by decide) (by decide)
      · have hp : ("END".data : PyStr) <+: line := by simpa using h
        obtain ⟨t, rfl⟩ := hp
        exact recOf_head_ne 'E' _ (by decide) (by decide)
    simp only [heteroDrop]
    simp [hne]
  · intro rw line hpre hres
    have hrec : isRecordLine line = true := by
      simp [isRecordLine, hpre]
    simp [keepLine, hrec, chainDrop, normChains, waterDrop, heteroDrop,
      hres, normLigands]
    right
    decide
  · intro rw kc line hpre hres
    have hdrop : heteroDrop true (normLigands (some ["HEM".data])) line = true := by
      rw [heteroDrop_eq_true_iff]
      refine ⟨rfl, recOf_of_hetatm line hpre, ?_⟩
      have : normLigands (some ["HEM".data]) = ["HEM".data] := rfl
      rw [this]
      simpa using hres
    simp [keepLine, hdrop]

theorem hetero_filter_hetatm_only_witness :
    keepLine false true (normChains none) (normLigands (some ["HEM".data]))
      "HETATM    1 FE   HEM A   1".data = true ∧
    keepLine false true [] (normLigands (some ["HEM".data]))
      "HETATM    2  O   XYZ A   2".data = false := by
  constructor
  · exact hetero_filter_hetatm_only.2.2.1 false _ (by decide) (by decide)
  · exact hetero_filter_hetatm_only.2.2.2 false [] _ (by decide) (by decide)

/-! ### C8 -/

/-- C8: `clean_pdb` is idempotent — when a run succeeds, re-running on the
lines it wrote, with the same configuration, succeeds, writes exactly the
same lines, and reports every removal counter as zero. -/
theorem clean_pdb_idempotent (rw rh : Bool) (kc kl : Option (List PyStr))
    (input out : List PyStr) (rem : Removed)
    (h : clean_pdb rw rh kc kl input = .ok (rem, out)) :
    clean_pdb rw rh kc kl out = .ok (⟨0, 0, 0⟩, out) := by
  obtain ⟨hout, -, hne⟩ := clean_pdb_ok_elim rw rh kc kl input out rem h
  have hfil : out = input.filter (keepLine rw rh (normChains kc) (normLigands kl)) := by
    rw [hout, cleanLines_fst]
  have hall : ∀ l ∈ out, keepLine rw rh (normChains kc) (normLigands kl) l = true := by
    intro l hl
    rw [hfil] at hl
    exact (List.mem_filter.mp hl).2
  have hself : (cleanLines rw rh (normChains kc) (normLigands kl) out).1 = out := by
    rw [cleanLines_fst, List.filter_eq_self]
    exact hall
  have hdrops : ∀ l ∈ out,
      chainDrop (normChains kc) l = false ∧ waterDrop rw l = false ∧
        heteroDrop rh (normLigands kl) l = false := by
    intro l hl
    have := hall l hl
    simp only [keepLine, Bool.and_eq_true, Bool.not_eq_true'] at this
    exact ⟨this.1.1.2, this.1.2, this.2⟩
  have hcnt : (cleanLines rw rh (normChains kc) (normLigands kl) out).2 = ⟨0, 0, 0⟩ := by
    have h1 := cleanLines_skipped_chains rw rh (normChains kc) (normLigands kl) out
    have h2 := cleanLines_waters rw rh (normChains kc) (normLigands kl) out
    have h3 := cleanLines_hetero rw rh (normChains kc) (normLigands kl) out
    have z1 : out.countP (fun l => isRecordLine l && chainDrop (normChains kc) l) = 0 := by
      rw [List.countP_eq_zero]
      intro l hl
      simp [(hdrops l hl).1]
    have z2 : out.countP (fun l =>
        isRecordLine l && !chainDrop (normChains kc) l && waterDrop rw l) = 0 := by
      rw [List.countP_eq_zero]
      intro l hl
      simp [(hdrops l hl).2.1]
    have z3 : out.countP (fun l =>
        isRecordLine l && !chainDrop (normChains kc) l && !waterDrop rw l &&
          heteroDrop rh (normLigands kl) l) = 0 := by
      rw [List.countP_eq_zero]
      intro l hl
      simp [(hdrops l hl).2.2]
    cases hc : (cleanLines rw rh (normChains kc) (normLigands kl) out).2
    rw [hc] at h1 h2 h3
    simp only at h1 h2 h3
    rw [h1, h2, h3, z1, z2, z3]
  unfold clean_pdb
  rw [if_neg (by rw [hself]; simpa [List.isEmpty_iff] using hne)]
  rw [hself, hcnt]

theorem clean_pdb_idempotent_witness :
    clean_pdb true true none none ["ATOM  x".data] =
      .ok (⟨0, 0, 0⟩, ["ATOM  x".data]) :=
  clean_pdb_idempotent true true none none
    ["ATOM  x".data] ["ATOM  x".data] ⟨0, 0, 0⟩ rfl

/-! ### C9 -/

/-- C9: a retained-kind line whose chain-id column (column 22) is empty or
whitespace — including lines shorter than 22 characters — is never dropped
by the chain filter, whatever `keep_chains` holds, and processing it leaves
the `skipped_chains` counter unchanged. -/
theorem blank_chain_passes_chain_filter (rw rh : Bool) (kc kl : List PyStr)
    (input : List PyStr) (line : PyStr)
    (h : pyStrip ((line.drop 21).take 1) = []) :
    chainDrop kc line = false ∧
    (cleanLines rw rh kc kl (line :: input)).2.skipped_chains =
      (cleanLines rw rh kc kl input).2.skipped_chains := by
  have hid : chainIdOf line = [] := by
    unfold chainIdOf
    split <;> simp [h]
  have hcd : chainDrop kc line = false := by
    simp [chainDrop, hid]
  refine ⟨hcd, ?_⟩
  rw [cleanLines_skipped_chains, cleanLines_skipped_chains, List.countP_cons]
  simp [hcd]

theorem blank_chain_passes_chain_filter_witness :
    chainDrop ["A".data] "TER".data = false ∧
    (cleanLines true true ["A".data] [] ["TER".data]).2.skipped_chains =
      (cleanLines true true ["A".data] [] []).2.skipped_chains :=
  blank_chain_passes_chain_filter true true ["A".data] [] [] "TER".data
    (by decide)

/-! ### C10 -/

/-- C10: `clean_pdb` is not atomic on failure — the destination is opened
for writing (created and truncated) before the loop, so when the call raises
the empty-output error the destination file exists and is empty rather than
untouched. -/
theorem clean_pdb_run_not_atomic (rw rh : Bool) (kc kl : Option (List PyStr))
    (input : List PyStr) (e : String)
    (h : (clean_pdb_run rw rh kc kl input).1 = .error e) :
    (clean_pdb_run rw rh kc kl input).2 = some [] := by
  have herr : isError (clean_pdb rw rh kc kl input) = true := by
    have : (clean_pdb_run rw rh kc kl input).1 = clean_pdb rw rh kc kl input := rfl
    rw [this] at h
    rw [h]
    rfl
  rw [clean_pdb_error_iff] at herr
  show some (cleanLines rw rh (normChains kc) (normLigands kl) input).1 = some []
  rw [cleanLines_fst, herr]

theorem clean_pdb_run_not_atomic_witness :
    (clean_pdb_run true true none none ["REMARK hi".data]).2 = some [] :=
  clean_pdb_run_not_atomic true true none none ["REMARK hi".data] _ rfl

/-! ### Lemmas about the retry loop -/

theorem downloadAttempts_fst_eq_find (o : Nat → AttemptResult) (l : List Nat) :
    (downloadAttempts o l).1 =
      (l.find? (fun a => (o a).ok)).map (fun a => (a, (o a).content)) := by
  induction l with
  | nil => rfl
  | cons a rest ih =>
    by_cases h : (o a).ok = true
    · simp [downloadAttempts, h, List.find?_cons_of_pos _ h]
    · rw [Bool.not_eq_true] at h
      rw [List.find?_cons_of_neg]
      · simp [downloadAttempts, h, ih]
      · simp [h]

theorem downloadAttempts_calls_le (o : Nat → AttemptResult) (l : List Nat) :
    (downloadAttempts o l).2.1 ≤ l.length := by
  induction l with
  | nil => simp [downloadAttempts]
  | cons a rest ih =>
    by_cases h : (o a).ok = true <;> simp [downloadAttempts, h] <;> omega

theorem downloadAttempts_all_fail (o : Nat → AttemptResult) (l : List Nat)
    (h : ∀ a ∈ l, (o a).ok = false) :
    (downloadAttempts o l).1 = none ∧ (downloadAttempts o l).2.1 = l.length := by
  induction l with
  | nil => simp [downloadAttempts]
  | cons a rest ih =>
    have ha : (o a).ok = false := h a (by simp)
    have := ih (fun b hb => h b (by simp [hb]))
    simp [downloadAttempts, ha, this.1, this.2]

theorem downloadAttempts_append_all_fail (o : Nat → AttemptResult)
    (l₁ l₂ : List Nat) (h : ∀ a ∈ l₁, (o a).ok = false) :
    (downloadAttempts o (l₁ ++ l₂)).1 = (downloadAttempts o l₂).1 ∧
    (downloadAttempts o (l₁ ++ l₂)).2.1 =
      l₁.length + (downloadAttempts o l₂).2.1 := by
  induction l₁ with
  | nil => simp
  | cons a rest ih =>
    have ha : (o a).ok = false := h a (by simp)
    have := ih (fun b hb => h b (by simp [hb]))
    simp [downloadAttempts, ha, this.1, this.2]
    omega

/-! ### C6 -/

/-- C6: `download_pdb` makes at most `retries` network calls, with one fixed
sleep after each failed attempt; it raises exactly when every one of the
`retries` attempts fails (writing nothing), and when the first success is
attempt `i` it stops there, returning and writing that attempt's bytes after
exactly `i` calls and `i - 1` sleeps; in particular an oracle that fails
twice and succeeds on the third of 3 allowed attempts yields a success. -/
theorem download_pdb_spec (oracle : Nat → AttemptResult) (pdb_id : PyStr)
    (retries : Nat) :
    (download_pdb oracle pdb_id retries).calls ≤ retries ∧
    (isError (download_pdb oracle pdb_id retries).result = true ↔
      ∀ i, 1 ≤ i → i ≤ retries → (oracle i).ok = false) ∧
    ((∀ i, 1 ≤ i → i ≤ retries → (oracle i).ok = false) →
      (download_pdb oracle pdb_id retries).written = none ∧
      (download_pdb oracle pdb_id retries).calls = retries ∧
      (download_pdb oracle pdb_id retries).sleeps = retries) ∧
    (∀ i, 1 ≤ i → i ≤ retries → (oracle i).ok = true →
      (∀ j, 1 ≤ j → j < i → (oracle j).ok = false) →
      (download_pdb oracle pdb_id retries).result = .ok (oracle i).content ∧
      (download_pdb oracle pdb_id retries).written = some (oracle i).content ∧
      (download_pdb oracle pdb_id retries).calls = i ∧
      (download_pdb oracle pdb_id retries).sleeps = i - 1) ∧
    (download_pdb
        (fun i => if i ≤ 2 then ⟨false, [], "timeout"⟩
                  else ⟨true, "BYTES".data, ""⟩)
        "1abc".data 3).result = .ok "BYTES".data := by
  have hmem : ∀ a, a ∈ List.range' 1 retries ↔ 1 ≤ a ∧ a ≤ retries := by
    intro a
    rw [List.mem_range']
    constructor
    · rintro ⟨i, hi, rfl⟩; omega
    · rintro ⟨h1, h2⟩; exact ⟨a - 1, by omega, by omega⟩
  refine ⟨?_, ?_, ?_, ?_, by rfl⟩
  · unfold download_pdb
    have := downloadAttempts_calls_le oracle (List.range' 1 retries)
    rw [List.length_range'] at this
    split <;> simpa using this
  · unfold download_pdb
    constructor
    · intro h i h1 h2
      by_contra hok
      rw [Bool.not_eq_false] at hok
      have hfind : (List.range' 1 retries).find? (fun a => (oracle a).ok) ≠ none := by
        intro hn
        rw [List.find?_eq_none] at hn
        exact absurd hok (by simpa using hn i ((hmem i).mpr ⟨h1, h2⟩))
      obtain ⟨a, ha⟩ := Option.ne_none_iff_exists'.mp hfind
      have hfst := downloadAttempts_fst_eq_find oracle (List.range' 1 retries)
      rw [ha] at hfst
      rw [hfst] at h
      simp [isError] at h
    · intro hall
      have hfind : (List.range' 1 retries).find? (fun a => (oracle a).ok) = none := by
        rw [List.find?_eq_none]
        intro a ha
        have := hall a ((hmem a).mp ha).1 ((hmem a).mp ha).2
        simp [this]
      have hfst := downloadAttempts_fst_eq_find oracle (List.range' 1 retries)
      rw [hfind] at hfst
      simp only [Option.map_none'] at hfst
      rw [hfst]
      rfl
  · intro hall
    have hfail := downloadAttempts_all_fail oracle (List.range' 1 retries)
      (fun a ha => hall a ((hmem a).mp ha).1 ((hmem a).mp ha).2)
    rw [List.length_range'] at hfail
    unfold download_pdb
    rw [hfail.1]
    exact ⟨rfl, hfail.2, hfail.2⟩
  · intro i h1 h2 hok hbefore
    have hsplit : List.range' 1 retries =
        List.range' 1 (i - 1) ++ i :: List.range' (i + 1) (retries - i) := by
      have h3 : List.range' i (retries - i + 1) =
          i :: List.range' (i + 1) (retries - i) := List.range'_succ i (retries - i) 1
      have h4 : List.range' 1 (i - 1) ++ List.range' (1 + 1 * (i - 1)) (retries - i + 1) =
          List.range' 1 (retries - i + 1 + (i - 1)) := List.range'_append 1 (i - 1) (retries - i + 1) 1
      have h5 : 1 + 1 * (i - 1) = i := by omega
      have h6 : retries - i + 1 + (i - 1) = retries := by omega
      rw [h5, h6, h3] at h4
      exact h4.symm
    have hpre : ∀ a ∈ List.range' 1 (i - 1), (oracle a).ok = false := by
      intro a ha
      rw [List.mem_range'] at ha
      obtain ⟨j, hj, rfl⟩ := ha
      exact hbefore _ (by omega) (by omega)
    have happ := downloadAttempts_append_all_fail oracle (List.range' 1 (i - 1))
      (i :: List.range' (i + 1) (retries - i)) hpre
    have hcons : downloadAttempts oracle (i :: List.range' (i + 1) (retries - i)) =
        (some (i, (oracle i).content), 1, none) := by
      simp [downloadAttempts, hok]
    have hfst : (downloadAttempts oracle (List.range' 1 retries)).1 =
        some (i, (oracle i).content) := by
      rw [hsplit, happ.1, hcons]
    have hcalls : (downloadAttempts oracle (List.range' 1 retries)).2.1 = i := by
      rw [hsplit, happ.2, hcons]
      simp [List.length_range']
      omega
    unfold download_pdb
    rw [hfst]
    exact ⟨rfl, rfl, hcalls, by rw [hcalls]⟩

theorem download_pdb_spec_witness :
    (download_pdb
        (fun i => if i ≤ 2 then ⟨false, [], "timeout"⟩
                  else ⟨true, "BYTES".data, ""⟩)
        "1abc".data 3).result = .ok "BYTES".data ∧
    (download_pdb
        (fun i => if i ≤ 2 then ⟨false, [], "timeout"⟩
                  else ⟨true, "BYTES".data, ""⟩)
        "1abc".data 3).calls = 3 := by
  have h := (download_pdb_spec
    (fun i => if i ≤ 2 then ⟨false, [], "timeout"⟩
              else ⟨true, "BYTES".data, ""⟩)
    "1abc".data 3).2.2.2.1 3 (by decide) (by decide) (by decide)
    (by intro j h1 h2; interval_cases j <;> decide)
  exact ⟨h.1, h.2.2.1⟩

/-! ### Lemmas about the orchestration stages -/

theorem resolveTarget_local (cfg : MainConfig) (env : TargetEnv) (t : PyStr)
    (h : env.isLocal = true) :
    resolveTarget cfg env t = .ok (t, splitextRoot (basename t)) := by
  simp [resolveTarget, h]

theorem resolveTarget_remote_ok (cfg : MainConfig) (env : TargetEnv) (t : PyStr)
    (h : env.isLocal = false) (h2 : env.downloadOk = true) :
    resolveTarget cfg env t = .ok (fetchedPath cfg (pyUpper t), pyUpper t) := by
  simp [resolveTarget, h, h2]

theorem resolveTarget_remote_fail (cfg : MainConfig) (env : TargetEnv) (t : PyStr)
    (h : env.isLocal = false) (h2 : env.downloadOk = false) :
    resolveTarget cfg env t = .error ("Failed to download " ++
      String.mk (pyUpper t) ++ " after 3 attempts: " ++ env.downloadErrText) := by
  simp [resolveTarget, h, h2]

theorem clean_pdb_ok_of_ne (rw rh : Bool) (kc kl : Option (List PyStr))
    (input : List PyStr)
    (h : input.filter (keepLine rw rh (normChains kc) (normLigands kl)) ≠ []) :
    clean_pdb rw rh kc kl input =
      .ok ((cleanLines rw rh (normChains kc) (normLigands kl) input).2,
           (cleanLines rw rh (normChains kc) (normLigands kl) input).1) := by
  unfold clean_pdb
  rw [if_neg]
  simp [List.isEmpty_iff, cleanLines_fst, h]

theorem clean_pdb_eq_error_of_nil (rw rh : Bool) (kc kl : Option (List PyStr))
    (input : List PyStr)
    (h : input.filter (keepLine rw rh (normChains kc) (normLigands kl)) = []) :
    clean_pdb rw rh kc kl input =
      .error "No ATOM/HETATM records written — check input or filters." := by
  unfold clean_pdb
  rw [if_pos]
  simp [List.isEmpty_iff, cleanLines_fst, h]

theorem protonStage_off (cfg : MainConfig) (sys : SysEnv) (env : TargetEnv)
    (label : PyStr) (st : StageState) (h : cfg.protonate = false) :
    protonStage cfg sys env label st = .ok st := by
  simp [protonStage, h]

theorem protonStage_skip (cfg : MainConfig) (sys : SysEnv) (env : TargetEnv)
    (label : PyStr) (st : StageState) (h : cfg.protonate = true)
    (h2 : sys.pdb2pqr_ready = false) :
    protonStage cfg sys env label st =
      .ok { st with report :=
        { st.report with protonate_skipped := some "PDB2PQR not available".data } } := by
  simp [protonStage, h, h2]

theorem protonStage_ran (cfg : MainConfig) (sys : SysEnv) (env : TargetEnv)
    (label : PyStr) (st : StageState) (h : cfg.protonate = true)
    (h2 : sys.pdb2pqr_ready = true) :
    protonStage cfg sys env label st =
      .ok { report := { st.report with protonate := some ⟨pdb2pqrCmd
              st.processed (finalPdbPath cfg label) cfg.ph,
              env.protonRun.rc, env.protonRun.output⟩ },
            processed := if env.protonRun.rc = 0 then finalPdbPath cfg label
              else st.processed,
            calls := st.calls ++
              [.protonate st.processed (finalPdbPath cfg label) cfg.ph] } := by
  by_cases hrc : env.protonRun.rc = 0 <;>
    simp [protonStage, h, h2, protonate_with_pdb2pqr, hrc]

theorem hydroStage_off_protonate (cfg : MainConfig) (sys : SysEnv)
    (env : TargetEnv) (label : PyStr) (st : StageState)
    (h : cfg.protonate = true) :
    hydroStage cfg sys env label st = .ok st := by
  simp [hydroStage, h]

theorem hydroStage_off (cfg : MainConfig) (sys : SysEnv) (env : TargetEnv)
    (label : PyStr) (st : StageState) (h : cfg.add_hydrogens = false) :
    hydroStage cfg sys env label st = .ok st := by
  simp [hydroStage, h]

theorem hydroStage_skip (cfg : MainConfig) (sys : SysEnv) (env : TargetEnv)
    (label : PyStr) (st : StageState) (h : cfg.add_hydrogens = true)
    (hp : cfg.protonate = false) (h2 : sys.obabel_ready = false) :
    hydroStage cfg sys env label st =
      .ok { st with report :=
        { st.report with add_hydrogens_skipped := some "OpenBabel not available".data } } := by
  simp [hydroStage, h, hp, h2]

theorem hydroStage_ran (cfg : MainConfig) (sys : SysEnv) (env : TargetEnv)
    (label : PyStr) (st : StageState) (h : cfg.add_hydrogens = true)
    (hp : cfg.protonate = false) (exe : PyStr) (h2 : sys.obabel_exe = some exe) :
    hydroStage cfg sys env label st =
      .ok { report := { st.report with add_hydrogens := some ⟨obabelHydroCmd
              exe st.processed (finalPdbPath cfg label),
              env.hydroRun.rc, env.hydroRun.output⟩ },
            processed := if env.hydroRun.rc = 0 then finalPdbPath cfg label
              else st.processed,
            calls := st.calls ++
              [.hydrogens st.processed (finalPdbPath cfg label)] } := by
  by_cases hrc : env.hydroRun.rc = 0 <;>
    simp [hydroStage, h, hp, SysEnv.obabel_ready, h2,
      add_hydrogens_with_obabel, hrc]

theorem convertStage_off (cfg : MainConfig) (sys : SysEnv) (env : TargetEnv)
    (label : PyStr) (st : StageState) (h : cfg.auto_pdbqt = false) :
    convertStage cfg sys env label st = .ok st := by
  simp [convertStage, h]

theorem convertStage_skip (cfg : MainConfig) (sys : SysEnv) (env : TargetEnv)
    (label : PyStr) (st : StageState) (h : cfg.auto_pdbqt = true)
    (h2 : sys.obabel_ready = false) :
    convertStage cfg sys env label st =
      .ok { st with report :=
        { st.report with pdbqt_skipped := some "OpenBabel not available".data } } := by
  simp [convertStage, h, h2]

theorem convertStage_ran (cfg : MainConfig) (sys : SysEnv) (env : TargetEnv)
    (label : PyStr) (st : StageState) (h : cfg.auto_pdbqt = true)
    (exe : PyStr) (h2 : sys.obabel_exe = some exe) :
    convertStage cfg sys env label st =
      .ok { st with
            report := { st.report with pdbqt := some ⟨obabelConvertCmd
              exe st.processed (pdbqtPath cfg label),
              env.convertRun.rc, env.convertRun.output⟩ },
            calls := st.calls ++ [.convert st.processed (pdbqtPath cfg label)] } := by
  simp [convertStage, h, SysEnv.obabel_ready, h2, convert_to_pdbqt_with_obabel]

theorem protonStage_total (cfg : MainConfig) (sys : SysEnv) (env : TargetEnv)
    (label : PyStr) (st : StageState) :
    ∃ st', protonStage cfg sys env label st = .ok st' := by
  by_cases hp : cfg.protonate = true
  · by_cases hr : sys.pdb2pqr_ready = true
    · exact ⟨_, protonStage_ran cfg sys env label st hp hr⟩
    · exact ⟨_, protonStage_skip cfg sys env label st hp (by simpa using hr)⟩
  · exact ⟨_, protonStage_off cfg sys env label st (by simpa using hp)⟩

theorem hydroStage_total (cfg : MainConfig) (sys : SysEnv) (env : TargetEnv)
    (label : PyStr) (st : StageState) :
    ∃ st', hydroStage cfg sys env label st = .ok st' := by
  by_cases hp : cfg.protonate = true
  · exact ⟨_, hydroStage_off_protonate cfg sys env label st hp⟩
  by_cases ha : cfg.add_hydrogens = true
  · by_cases hr : sys.obabel_ready = true
    · obtain ⟨exe, hexe⟩ := Option.isSome_iff_exists.mp hr
      exact ⟨_, hydroStage_ran cfg sys env label st ha (by simpa using hp) exe hexe⟩
    · exact ⟨_, hydroStage_skip cfg sys env label st ha (by simpa using hp)
        (by simpa using hr)⟩
  · exact ⟨_, hydroStage_off cfg sys env label st (by simpa using ha)⟩

theorem convertStage_total (cfg : MainConfig) (sys : SysEnv) (env : TargetEnv)
    (label : PyStr) (st : StageState) :
    ∃ st', convertStage cfg sys env label st = .ok st' := by
  by_cases ha : cfg.auto_pdbqt = true
  · by_cases hr : sys.obabel_ready = true
    · obtain ⟨exe, hexe⟩ := Option.isSome_iff_exists.mp hr
      exact ⟨_, convertStage_ran cfg sys env label st ha exe hexe⟩
    · exact ⟨_, convertStage_skip cfg sys env label st ha (by simpa using hr)⟩
  · exact ⟨_, convertStage_off cfg sys env label st (by simpa using ha)⟩

theorem protonStage_pres_hydro (cfg : MainConfig) (sys : SysEnv)
    (env : TargetEnv) (label : PyStr) (st st' : StageState)
    (h : protonStage cfg sys env label st = .ok st') :
    st'.report.add_hydrogens = st.report.add_hydrogens ∧
    st'.report.add_hydrogens_skipped = st.report.add_hydrogens_skipped ∧
    (∀ c ∈ st'.calls, c ∈ st.calls ∨ ToolCall.isHydro c = false) := by
  by_cases hp : cfg.protonate = true
  · by_cases hr : sys.pdb2pqr_ready = true
    · rw [protonStage_ran cfg sys env label st hp hr] at h
      obtain rfl := (Except.ok.injEq _ _).mp h
      refine ⟨rfl, rfl, ?_⟩
      intro c hc
      rw [List.mem_append] at hc
      rcases hc with hc | hc
      · exact Or.inl hc
      · simp at hc
        subst hc
        exact Or.inr rfl
    · rw [protonStage_skip cfg sys env label st hp (by simpa using hr)] at h
      obtain rfl := (Except.ok.injEq _ _).mp h
      exact ⟨rfl, rfl, fun c hc => Or.inl hc⟩
  · rw [protonStage_off cfg sys env label st (by simpa using hp)] at h
    obtain rfl := (Except.ok.injEq _ _).mp h
    exact ⟨rfl, rfl, fun c hc => Or.inl hc⟩

theorem convertStage_pres (cfg : MainConfig) (sys : SysEnv) (env : TargetEnv)
    (label : PyStr) (st st' : StageState)
    (h : convertStage cfg sys env label st = .ok st') :
    st'.report.add_hydrogens = st.report.add_hydrogens ∧
    st'.report.add_hydrogens_skipped = st.report.add_hydrogens_skipped ∧
    st'.report.protonate = st.report.protonate ∧
    st'.processed = st.processed ∧
    (∀ c ∈ st'.calls, c ∈ st.calls ∨ ToolCall.isHydro c = false) := by
  by_cases ha : cfg.auto_pdbqt = true
  · by_cases hr : sys.obabel_ready = true
    · obtain ⟨exe, hexe⟩ := Option.isSome_iff_exists.mp hr
      rw [convertStage_ran cfg sys env label st ha exe hexe] at h
      obtain rfl := (Except.ok.injEq _ _).mp h
      refine ⟨rfl, rfl, rfl, rfl, ?_⟩
      intro c hc
      rw [List.mem_append] at hc
      rcases hc with hc | hc
      · exact Or.inl hc
      · simp at hc
        subst hc
        exact Or.inr rfl
    · rw [convertStage_skip cfg sys env label st ha (by simpa using hr)] at h
      obtain rfl := (Except.ok.injEq _ _).mp h
      exact ⟨rfl, rfl, rfl, rfl, fun c hc => Or.inl hc⟩
  · rw [convertStage_off cfg sys env label st (by simpa using ha)] at h
    obtain rfl := (Except.ok.injEq _ _).mp h
    exact ⟨rfl, rfl, rfl, rfl, fun c hc => Or.inl hc⟩

theorem runTargetE_stages (cfg : MainConfig) (sys : SysEnv) (env : TargetEnv)
    (t fetched label : PyStr)
    (hres : resolveTarget cfg env t = .ok (fetched, label))
    (hcln : env.fileLines.filter (keepLine cfg.remove_waters cfg.remove_hetero
      (normChains cfg.keep_chain_list) (normLigands cfg.keep_lig_list)) ≠ []) :
    runTargetE cfg sys env t =
      (protonStage cfg sys env label
        ⟨{ input := t, fetched := fetched, cleaned := cleanedPath cfg label,
           removed := (cleanLines cfg.remove_waters cfg.remove_hetero
             (normChains cfg.keep_chain_list) (normLigands cfg.keep_lig_list)
             env.fileLines).2 },
         cleanedPath cfg label, []⟩).bind
        (fun st1 => (hydroStage cfg sys env label st1).bind
          (fun st2 => convertStage cfg sys env label st2)) := by
  unfold runTargetE
  rw [hres, clean_pdb_ok_of_ne _ _ _ _ _ hcln]
  rfl

theorem runTarget_fail_download (cfg : MainConfig) (sys : SysEnv)
    (env : TargetEnv) (t : PyStr)
    (h : env.isLocal = false) (h2 : env.downloadOk = false) :
    runTarget cfg sys env t =
      (.failure t ("Failed to download " ++ String.mk (pyUpper t) ++
        " after 3 attempts: " ++ env.downloadErrText), [], none) := by
  unfold runTarget runTargetE
  rw [resolveTarget_remote_fail cfg env t h h2]
  rfl

theorem runTarget_fail_clean (cfg : MainConfig) (sys : SysEnv)
    (env : TargetEnv) (t fetched label : PyStr)
    (hres : resolveTarget cfg env t = .ok (fetched, label))
    (h : env.fileLines.filter (keepLine cfg.remove_waters cfg.remove_hetero
      (normChains cfg.keep_chain_list) (normLigands cfg.keep_lig_list)) = []) :
    runTarget cfg sys env t =
      (.failure t "No ATOM/HETATM records written — check input or filters.",
        [], none) := by
  unfold runTarget runTargetE
  rw [hres, clean_pdb_eq_error_of_nil _ _ _ _ _ h]
  rfl

theorem runTargets_getElem? (cfg : MainConfig) (sys : SysEnv)
    (targets : List PyStr) (envs : List TargetEnv) (k : Nat) (t : PyStr)
    (env : TargetEnv) (h1 : targets[k]? = some t) (h2 : envs[k]? = some env) :
    (runTargets cfg sys envs targets)[k]? = some ((runTarget cfg sys env t).1) := by
  unfold runTargets
  rw [List.getElem?_zipWith, h1, h2]

/-! ### C3 -/

/-- C3: a batch of N targets yields exactly N report entries, in target
order, each the outcome of its own target alone (so a failure at position K
leaves every other entry untouched and processing continues); a target whose
download fails, or whose cleaning retains nothing, gets a failure entry
carrying the error string; and the aggregated report is written (once, after
the loop) whatever the entries contain — even if every target failed. -/
theorem main_batch_report_spec (cfg : MainConfig) (sys : SysEnv)
    (envs : List TargetEnv) (targets : List PyStr)
    (hlen : envs.length = targets.length) :
    (mainRun cfg sys envs targets).reports.length = targets.length ∧
    (mainRun cfg sys envs targets).log_written =
      some (mainRun cfg sys envs targets).reports ∧
    (∀ (k : Nat) (t : PyStr) (env : TargetEnv),
      targets[k]? = some t → envs[k]? = some env →
      (mainRun cfg sys envs targets).reports[k]? =
        some ((runTarget cfg sys env t).1)) ∧
    (∀ (env : TargetEnv) (t : PyStr),
      env.isLocal = false → env.downloadOk = false →
      (runTarget cfg sys env t).1 = .failure t ("Failed to download " ++
        String.mk (pyUpper t) ++ " after 3 attempts: " ++ env.downloadErrText)) ∧
    (∀ (env : TargetEnv) (t fetched label : PyStr),
      resolveTarget cfg env t = .ok (fetched, label) →
      env.fileLines.filter (keepLine cfg.remove_waters cfg.remove_hetero
        (normChains cfg.keep_chain_list) (normLigands cfg.keep_lig_list)) = [] →
      (runTarget cfg sys env t).1 =
        .failure t "No ATOM/HETATM records written — check input or filters.") := by
  refine ⟨?_, rfl, ?_, ?_, ?_⟩
  · show (runTargets cfg sys envs targets).length = targets.length
    unfold runTargets
    rw [List.length_zipWith, hlen, Nat.min_self]
  · intro k t env h1 h2
    exact runTargets_getElem? cfg sys targets envs k t env h1 h2
  · intro env t h1 h2
    rw [runTarget_fail_download cfg sys env t h1 h2]
  · intro env t fetched label hresm hnil
    rw [runTarget_fail_clean cfg sys env t fetched label hresm hnil]

theorem main_batch_report_spec_witness :
    (mainRun ⟨"out".data, true, true, none, none, false, false, false,
        "7.4".data⟩ ⟨none, false⟩
      [⟨false, false, "boom", [], ⟨0, []⟩, ⟨0, []⟩, ⟨0, []⟩⟩]
      ["1abc".data]).reports.length = 1 :=
  (main_batch_report_spec _ _ _ _ rfl).1

/-! ### C4 -/

/-- C4 counterexample: a run with both `protonate = true` and
`add_hydrogens = true` (tools present, everything succeeding) produces a
success entry whose report holds no hydrogenation record at all — in
particular hydrogenation is NOT recorded as skipped, contrary to the
claim. -/
theorem protonate_and_hydrogens_cex :
    ReportEntry.isOkEntry (runTarget
      ⟨"out".data, true, true, none, none, true, true, false, "7.4".data⟩
      ⟨some "obabel".data, true⟩
      ⟨true, true, "", ["ATOM  x".data], ⟨0, []⟩, ⟨0, []⟩, ⟨0, []⟩⟩
      "x.pdb".data).1 = true ∧
    ReportEntry.hydroSkipRecord (runTarget
      ⟨"out".data, true, true, none, none, true, true, false, "7.4".data⟩
      ⟨some "obabel".data, true⟩
      ⟨true, true, "", ["ATOM  x".data], ⟨0, []⟩, ⟨0, []⟩, ⟨0, []⟩⟩
      "x.pdb".data).1 = none ∧
    ReportEntry.hydroResultRecord (runTarget
      ⟨"out".data, true, true, none, none, true, true, false, "7.4".data⟩
      ⟨some "obabel".data, true⟩
      ⟨true, true, "", ["ATOM  x".data], ⟨0, []⟩, ⟨0, []⟩, ⟨0, []⟩⟩
      "x.pdb".data).1 = none := by
  refine ⟨rfl, rfl, rfl⟩

/-- C4 (amended): when both `protonate` and `add_hydrogens` are requested,
only the protonation stage can execute — the hydrogenation tool is never
invoked for the target — and the report carries no hydrogenation entry at
all: neither a result nor a skipped marker (the code records nothing, rather
than recording it as skipped). -/
theorem protonate_excludes_hydrogenation (cfg : MainConfig) (sys : SysEnv)
    (env : TargetEnv) (t : PyStr)
    (hp : cfg.protonate = true) (hh : cfg.add_hydrogens = true) :
    (∀ c ∈ (runTarget cfg sys env t).2.1, ToolCall.isHydro c = false) ∧
    ReportEntry.hydroResultRecord (runTarget cfg sys env t).1 = none ∧
    ReportEntry.hydroSkipRecord (runTarget cfg sys env t).1 = none := by
  cases hE : runTargetE cfg sys env t with
  | error e =>
    unfold runTarget
    rw [hE]
    exact ⟨by intro c hc; simp at hc, rfl, rfl⟩
  | ok st =>
    have key : st.report.add_hydrogens = none ∧
        st.report.add_hydrogens_skipped = none ∧
        ∀ c ∈ st.calls, ToolCall.isHydro c = false := by
      unfold runTargetE at hE
      cases hresm : resolveTarget cfg env t with
      | error e =>
        rw [hresm] at hE
        simp only [Bind.bind, Except.bind] at hE
        exact absurd hE (by simp)
      | ok pr =>
        obtain ⟨fetched, label⟩ := pr
        rw [hresm] at hE
        simp only [Bind.bind, Except.bind] at hE
        cases hclnm : clean_pdb cfg.remove_waters cfg.remove_hetero
            cfg.keep_chain_list cfg.keep_lig_list env.fileLines with
        | error e =>
          rw [hclnm] at hE
          simp only [Bind.bind, Except.bind] at hE
          exact absurd hE (by simp)
        | ok pc =>
          obtain ⟨removed, outl⟩ := pc
          rw [hclnm] at hE
          simp only [Bind.bind, Except.bind] at hE
          obtain ⟨st1, hst1⟩ := protonStage_total cfg sys env label
            ⟨{ input := t, fetched := fetched, cleaned := cleanedPath cfg label,
               removed := removed }, cleanedPath cfg label, []⟩
          rw [hst1] at hE
          simp only [Bind.bind, Except.bind] at hE
          rw [hydroStage_off_protonate cfg sys env label st1 hp] at hE
          simp only [Bind.bind, Except.bind] at hE
          obtain ⟨st3, hst3⟩ := convertStage_total cfg sys env label st1
          rw [hst3] at hE
          obtain rfl := (Except.ok.injEq _ _).mp hE
          have k1 := protonStage_pres_hydro cfg sys env label _ st1 hst1
          have k3 := convertStage_pres cfg sys env label st1 _ hst3
          refine ⟨by rw [k3.1, k1.1], by rw [k3.2.1, k1.2.1], ?_⟩
          intro c hc
          rcases k3.2.2.2.2 c hc with hc1 | hc1
          · rcases k1.2.2 c hc1 with hc2 | hc2
            · simp at hc2
            · exact hc2
          · exact hc1
    unfold runTarget
    rw [hE]
    exact ⟨key.2.2, key.1, key.2.1⟩

theorem protonate_excludes_hydrogenation_witness :
    ReportEntry.hydroResultRecord (runTarget
      ⟨"out".data, true, true, none, none, true, true, false, "7.4".data⟩
      ⟨some "obabel".data, true⟩
      ⟨true, true, "", ["ATOM  x".data], ⟨0, []⟩, ⟨0, []⟩, ⟨0, []⟩⟩
      "x.pdb".data).1 = none ∧
    ReportEntry.hydroSkipRecord (runTarget
      ⟨"out".data, true, true, none, none, true, true, false, "7.4".data⟩
      ⟨some "obabel".data, true⟩
      ⟨true, true, "", ["ATOM  x".data], ⟨0, []⟩, ⟨0, []⟩, ⟨0, []⟩⟩
      "x.pdb".data).1 = none :=
  (protonate_excludes_hydrogenation
    ⟨"out".data, true, true, none, none, true, true, false, "7.4".data⟩
    ⟨some "obabel".data, true⟩
    ⟨true, true, "", ["ATOM  x".data], ⟨0, []⟩, ⟨0, []⟩, ⟨0, []⟩⟩
    "x.pdb".data rfl rfl).2

/-! ### C5 -/

/-- C5: for any target whose resolution and cleaning succeed, the pipeline
always reaches a success entry; when the protonation (resp. hydrogenation)
tool runs and exits non-zero, its result — exit code and captured output —
is recorded in the report, the `processed` pointer stays on the cleaned
file, and the conversion stage is invoked on the cleaned file; the pointer
advances to the stage's `_final.pdb` output exactly on exit code zero. -/
theorem tool_failure_keeps_processed (cfg : MainConfig) (sys : SysEnv)
    (env : TargetEnv) (t : PyStr)
    (hres : env.isLocal = true ∨ (env.isLocal = false ∧ env.downloadOk = true))
    (hcln : env.fileLines.filter (keepLine cfg.remove_waters cfg.remove_hetero
      (normChains cfg.keep_chain_list) (normLigands cfg.keep_lig_list)) ≠ []) :
    ReportEntry.isOkEntry (runTarget cfg sys env t).1 = true ∧
    (cfg.protonate = true → sys.pdb2pqr_ready = true → env.protonRun.rc ≠ 0 →
      (ReportEntry.protonRecord (runTarget cfg sys env t).1).map
          ExecutionResult.rc = some env.protonRun.rc ∧
      (ReportEntry.protonRecord (runTarget cfg sys env t).1).map
          ExecutionResult.output = some env.protonRun.output ∧
      (runTarget cfg sys env t).2.2 =
        some (cleanedPath cfg (targetLabel env t)) ∧
      (cfg.auto_pdbqt = true → sys.obabel_ready = true →
        ToolCall.convert (cleanedPath cfg (targetLabel env t))
          (pdbqtPath cfg (targetLabel env t)) ∈ (runTarget cfg sys env t).2.1)) ∧
    (cfg.protonate = true → sys.pdb2pqr_ready = true → env.protonRun.rc = 0 →
      (runTarget cfg sys env t).2.2 =
        some (finalPdbPath cfg (targetLabel env t))) ∧
    (cfg.protonate = false → cfg.add_hydrogens = true →
      sys.obabel_ready = true → env.hydroRun.rc ≠ 0 →
      (ReportEntry.hydroResultRecord (runTarget cfg sys env t).1).map
          ExecutionResult.rc = some env.hydroRun.rc ∧
      (ReportEntry.hydroResultRecord (runTarget cfg sys env t).1).map
          ExecutionResult.output = some env.hydroRun.output ∧
      (runTarget cfg sys env t).2.2 =
        some (cleanedPath cfg (targetLabel env t)) ∧
      (cfg.auto_pdbqt = true →
        ToolCall.convert (cleanedPath cfg (targetLabel env t))
          (pdbqtPath cfg (targetLabel env t)) ∈ (runTarget cfg sys env t).2.1)) ∧
    (cfg.protonate = false → cfg.add_hydrogens = true →
      sys.obabel_ready = true → env.hydroRun.rc = 0 →
      (runTarget cfg sys env t).2.2 =
        some (finalPdbPath cfg (targetLabel env t))) := by
  have hres2 : ∃ fetched,
      resolveTarget cfg env t = .ok (fetched, targetLabel env t) := by
    rcases hres with h | ⟨h1, h2⟩
    · refine ⟨t, ?_⟩
      rw [resolveTarget_local cfg env t h]
      simp [targetLabel, h]
    · refine ⟨fetchedPath cfg (pyUpper t), ?_⟩
      rw [resolveTarget_remote_ok cfg env t h1 h2]
      simp [targetLabel, h1]
  obtain ⟨fetched, hres2⟩ := hres2
  set L := targetLabel env t with hLdef
  have hE := runTargetE_stages cfg sys env t fetched L hres2 hcln
  set st0 : StageState := StageState.mk
    { input := t, fetched := fetched, cleaned := cleanedPath cfg L,
      removed := (cleanLines cfg.remove_waters cfg.remove_hetero
        (normChains cfg.keep_chain_list) (normLigands cfg.keep_lig_list)
        env.fileLines).2 } (cleanedPath cfg L) [] with hst0def
  refine ⟨?_, ?_, ?_, ?_, ?_⟩
  · obtain ⟨st1, h1⟩ := protonStage_total cfg sys env L st0
    obtain ⟨st2, h2⟩ := hydroStage_total cfg sys env L st1
    obtain ⟨st3, h3⟩ := convertStage_total cfg sys env L st2
    have hrunE : runTargetE cfg sys env t = .ok st3 := by
      rw [hE, h1]
      simp only [Except.bind]
      rw [h2]
      simp only [Except.bind]
      exact h3
    unfold runTarget
    rw [hrunE]
    rfl
  · intro hp hrd hrc
    have h1 : protonStage cfg sys env L st0 = .ok
        { report := { st0.report with protonate := some ⟨pdb2pqrCmd
            st0.processed (finalPdbPath cfg L) cfg.ph,
            env.protonRun.rc, env.protonRun.output⟩ },
          processed := st0.processed,
          calls := st0.calls ++
            [.protonate st0.processed (finalPdbPath cfg L) cfg.ph] } := by
      rw [protonStage_ran cfg sys env L st0 hp hrd, if_neg hrc]
    obtain ⟨st3, h3⟩ := convertStage_total cfg sys env L
      { report := { st0.report with protonate := some ⟨pdb2pqrCmd
          st0.processed (finalPdbPath cfg L) cfg.ph,
          env.protonRun.rc, env.protonRun.output⟩ },
        processed := st0.processed,
        calls := st0.calls ++
          [.protonate st0.processed (finalPdbPath cfg L) cfg.ph] }
    have k3 := convertStage_pres cfg sys env L _ st3 h3
    have hrunE : runTargetE cfg sys env t = .ok st3 := by
      rw [hE, h1]
      simp only [Except.bind]
      rw [hydroStage_off_protonate cfg sys env L _ hp]
      simp only [Except.bind]
      exact h3
    have hRT : runTarget cfg sys env t =
        (.ok st3.report, st3.calls, some st3.processed) := by
      unfold runTarget
      rw [hrunE]
    rw [hRT]
    refine ⟨?_, ?_, ?_, ?_⟩
    · simp [ReportEntry.protonRecord, k3.2.2.1]
    · simp [ReportEntry.protonRecord, k3.2.2.1]
    · rw [k3.2.2.2.1]
    · intro hauto hob
      obtain ⟨exe, hexe⟩ := Option.isSome_iff_exists.mp hob
      have h3' := convertStage_ran cfg sys env L
        { report := { st0.report with protonate := some ⟨pdb2pqrCmd
            st0.processed (finalPdbPath cfg L) cfg.ph,
            env.protonRun.rc, env.protonRun.output⟩ },
          processed := st0.processed,
          calls := st0.calls ++
            [.protonate st0.processed (finalPdbPath cfg L) cfg.ph] }
        hauto exe hexe
      rw [h3'] at h3
      obtain rfl := (Except.ok.injEq _ _).mp h3
      simp [hst0def]
  · intro hp hrd hrc
    have h1 : protonStage cfg sys env L st0 = .ok
        { report := { st0.report with protonate := some ⟨pdb2pqrCmd
            st0.processed (finalPdbPath cfg L) cfg.ph,
            env.protonRun.rc, env.protonRun.output⟩ },
          processed := finalPdbPath cfg L,
          calls := st0.calls ++
            [.protonate st0.processed (finalPdbPath cfg L) cfg.ph] } := by
      rw [protonStage_ran cfg sys env L st0 hp hrd, if_pos hrc]
    obtain ⟨st3, h3⟩ := convertStage_total cfg sys env L
      { report := { st0.report with protonate := some ⟨pdb2pqrCmd
          st0.processed (finalPdbPath cfg L) cfg.ph,
          env.protonRun.rc, env.protonRun.output⟩ },
        processed := finalPdbPath cfg L,
        calls := st0.calls ++
          [.protonate st0.processed (finalPdbPath cfg L) cfg.ph] }
    have k3 := convertStage_pres cfg sys env L _ st3 h3
    have hrunE : runTargetE cfg sys env t = .ok st3 := by
      rw [hE, h1]
      simp only [Except.bind]
      rw [hydroStage_off_protonate cfg sys env L _ hp]
      simp only [Except.bind]
      exact h3
    have hRT : runTarget cfg sys env t =
        (.ok st3.report, st3.calls, some st3.processed) := by
      unfold runTarget
      rw [hrunE]
    rw [hRT]
    rw [k3.2.2.2.1]
  · intro hp hadd hob hrc
    obtain ⟨exe, hexe⟩ := Option.isSome_iff_exists.mp hob
    have h1 : protonStage cfg sys env L st0 = .ok st0 :=
      protonStage_off cfg sys env L st0 hp
    have h2 : hydroStage cfg sys env L st0 = .ok
        { report := { st0.report with add_hydrogens := some ⟨obabelHydroCmd
            exe st0.processed (finalPdbPath cfg L),
            env.hydroRun.rc, env.hydroRun.output⟩ },
          processed := st0.processed,
          calls := st0.calls ++
            [.hydrogens st0.processed (finalPdbPath cfg L)] } := by
      rw [hydroStage_ran cfg sys env L st0 hadd hp exe hexe, if_neg hrc]
    obtain ⟨st3, h3⟩ := convertStage_total cfg sys env L
      { report := { st0.report with add_hydrogens := some ⟨obabelHydroCmd
          exe st0.processed (finalPdbPath cfg L),
          env.hydroRun.rc, env.hydroRun.output⟩ },
        processed := st0.processed,
        calls := st0.calls ++
          [.hydrogens st0.processed (finalPdbPath cfg L)] }
    have k3 := convertStage_pres cfg sys env L _ st3 h3
    have hrunE : runTargetE cfg sys env t = .ok st3 := by
      rw [hE, h1]
      simp only [Except.bind]
      rw [h2]
      simp only [Except.bind]
      exact h3
    have hRT : runTarget cfg sys env t =
        (.ok st3.report, st3.calls, some st3.processed) := by
      unfold runTarget
      rw [hrunE]
    rw [hRT]
    refine ⟨?_, ?_, ?_, ?_⟩
    · simp [ReportEntry.hydroResultRecord, k3.1]
    · simp [ReportEntry.hydroResultRecord, k3.1]
    · rw [k3.2.2.2.1]
    · intro hauto
      have h3' := convertStage_ran cfg sys env L
        { report := { st0.report with add_hydrogens := some ⟨obabelHydroCmd
            exe st0.processed (finalPdbPath cfg L),
            env.hydroRun.rc, env.hydroRun.output⟩ },
          processed := st0.processed,
          calls := st0.calls ++
            [.hydrogens st0.processed (finalPdbPath cfg L)] }
        hauto exe hexe
      rw [h3'] at h3
      obtain rfl := (Except.ok.injEq _ _).mp h3
      simp [hst0def]
  · intro hp hadd hob hrc
    obtain ⟨exe, hexe⟩ := Option.isSome_iff_exists.mp hob
    have h1 : protonStage cfg sys env L st0 = .ok st0 :=
      protonStage_off cfg sys env L st0 hp
    have h2 : hydroStage cfg sys env L st0 = .ok
        { report := { st0.report with add_hydrogens := some ⟨obabelHydroCmd
            exe st0.processed (finalPdbPath cfg L),
            env.hydroRun.rc, env.hydroRun.output⟩ },
          processed := finalPdbPath cfg L,
          calls := st0.calls ++
            [.hydrogens st0.processed (finalPdbPath cfg L)] } := by
      rw [hydroStage_ran cfg sys env L st0 hadd hp exe hexe, if_pos hrc]
    obtain ⟨st3, h3⟩ := convertStage_total cfg sys env L
      { report := { st0.report with add_hydrogens := some ⟨obabelHydroCmd
          exe st0.processed (finalPdbPath cfg L),
          env.hydroRun.rc, env.hydroRun.output⟩ },
        processed := finalPdbPath cfg L,
        calls := st0.calls ++
          [.hydrogens st0.processed (finalPdbPath cfg L)] }
    have k3 := convertStage_pres cfg sys env L _ st3 h3
    have hrunE : runTargetE cfg sys env t = .ok st3 := by
      rw [hE, h1]
      simp only [Except.bind]
      rw [h2]
      simp only [Except.bind]
      exact h3
    have hRT : runTarget cfg sys env t =
        (.ok st3.report, st3.calls, some st3.processed) := by
      unfold runTarget
      rw [hrunE]
    rw [hRT]
    rw [k3.2.2.2.1]

theorem tool_failure_keeps_processed_witness :
    (runTarget ⟨"o".data, true, true, none, none, false, true, false,
        "7".data⟩ ⟨none, true⟩
      ⟨true, true, "", ["ATOM  x".data], ⟨1, "err".data⟩, ⟨0, []⟩, ⟨0, []⟩⟩
      "p.pdb".data).2.2 =
      some (cleanedPath ⟨"o".data, true, true, none, none, false, true, false,
          "7".data⟩
        (targetLabel ⟨true, true, "", ["ATOM  x".data], ⟨1, "err".data⟩,
          ⟨0, []⟩, ⟨0, []⟩⟩ "p.pdb".data)) :=
  ((tool_failure_keeps_processed _ _ _ _ (Or.inl rfl) (by decide)).2.1
    rfl rfl (by decide)).2.2.1

end ProteinPrep
